import Mathlib

/-!
Verification of the agent orchestration engine of the `pluto-eino-ai-agent`
repository (Go).  The Go source is shallowly embedded: the pure string
processing functions (`extractToolCall`, `parseParams`, `buildPrompt`,
`sendThinkingEvent`) are translated to Lean functions over `List Char` /
`String`; the stateful operations (`SetConversationID`, the web layer's
conversation binder, `Process`, `ProcessStream`) are translated to explicit
state-passing functions, with the LLM backend and the tool registry as
oracle parameters.

Modelling notes, stated once here:
* Go's `encoding/json` is embedded for the JSON subset the agent actually
  exchanges: objects, strings, integer numbers, booleans, null and arrays
  (fractions/exponents in numbers and `\uXXXX` string escapes are outside
  the subset; no claim input uses them).  A Go `map[string]interface{}` is
  represented canonically as an association list sorted by key (Go maps are
  unordered; `json.Marshal` serialises map keys in sorted order, which the
  canonical representation gives directly).  Struct-field matching is
  modelled as exact-name matching on the lowercase json tags used by the
  source (`tool`, `params`).
* Go byte indices coincide with character indices at every slicing point
  used by the source (slices always start at a match of an ASCII pattern),
  so the embedding works with character lists throughout.
* Channel traffic is modelled by its happens-before linearisation: in
  `ProcessStream` every thinking marker is sent to the caller channel
  before the backend streaming call produces its first chunk, and the relay
  goroutine forwards the internal channel in order, so the emitted sequence
  on the caller channel is deterministic.  `close` events are counted.
-/

/-! ## Characters and Go `strings` helpers -/

/-- `{` written via its code point (used throughout the JSON embedding). -/
def lbrace : Char := Char.ofNat 123

/-- `}` written via its code point. -/
def rbrace : Char := Char.ofNat 125

/-- Whitespace recognised by Go's JSON scanner: space (32), tab (9),
newline (10), carriage return (13), via code points. -/
def isWsC (c : Char) : Bool :=
  c.toNat == 32 || c.toNat == 9 || c.toNat == 10 || c.toNat == 13

/-- ASCII whitespace recognised by Go's `strings.TrimSpace`: space plus the
control range 9–13 (the inputs in this development contain no non-ASCII
Unicode spaces). -/
def isTrimC (c : Char) : Bool :=
  c.toNat == 32 || (decide (9 ≤ c.toNat) && decide (c.toNat ≤ 13))

/-- ASCII decimal digit, via the code point. -/
def isDigitC (c : Char) : Bool := decide (48 ≤ c.toNat ∧ c.toNat ≤ 57)

/-- ASCII letter, via the code point; used to characterise prose-initial text. -/
def isProseChar (c : Char) : Bool :=
  decide ((65 ≤ c.toNat ∧ c.toNat ≤ 90) ∨ (97 ≤ c.toNat ∧ c.toNat ≤ 122))

/-- Drop leading JSON whitespace. -/
def skipWs : List Char → List Char
  | [] => []
  | c :: cs => if isWsC c then skipWs cs else c :: cs

/-- `strings.TrimSpace` on character lists. -/
def trimSpaceL (l : List Char) : List Char :=
  ((l.dropWhile isTrimC).reverse.dropWhile isTrimC).reverse

/-- `strings.TrimSpace` on strings. -/
def trimSpaceS (s : String) : String := ⟨trimSpaceL s.data⟩

/-- Does `pat` occur as a prefix of `l`? -/
def leadsWith : List Char → List Char → Bool
  | [], _ => true
  | _ :: _, [] => false
  | p :: ps, c :: cs => p == c && leadsWith ps cs

/-- Index of the first occurrence of `pat` in `l` (Go `strings.Index`,
with `none` for Go's `-1`). -/
def indexOfSub (pat : List Char) : List Char → Option Nat
  | [] => if pat.isEmpty then some 0 else none
  | c :: cs =>
    if leadsWith pat (c :: cs) then some 0
    else (indexOfSub pat cs).map (· + 1)

/-- Go `strings.Contains`. -/
def containsSub (pat l : List Char) : Bool := (indexOfSub pat l).isSome

/-- Go `strings.SplitN(s, sep, 2)`: split at the first occurrence of `sep`. -/
def splitFirst (sep l : List Char) : List (List Char) :=
  match indexOfSub sep l with
  | none => [l]
  | some i => [l.take i, l.drop (i + sep.length)]

/-- Fuelled worker for `splitOnSub`. -/
def splitOnSubF : Nat → List Char → List Char → List (List Char)
  | 0, _, l => [l]
  | fuel + 1, sep, l =>
    match indexOfSub sep l with
    | none => [l]
    | some i => l.take i :: splitOnSubF fuel sep (l.drop (i + sep.length))

/-- Go `strings.Split` for a non-empty separator. -/
def splitOnSub (sep l : List Char) : List (List Char) :=
  splitOnSubF (l.length + 1) sep l

/-! ## JSON values (Go `encoding/json` subset) -/

/-- A JSON value as decoded by Go into `interface{}`: objects become
string-keyed maps (canonically: key-sorted association lists), numbers in
the integer subset become `Int`. -/
inductive Jval where
  | null
  | bool (b : Bool)
  | num (n : Int)
  | str (s : String)
  | arr (xs : List Jval)
  | obj (kvs : List (String × Jval))

/-- Lexicographic order on character lists via code points (Go's string
order, which `json.Marshal` sorts map keys by; identical to byte order on
the ASCII keys this system exchanges). -/
def listCharLt : List Char → List Char → Bool
  | [], ys => !ys.isEmpty
  | _ :: _, [] => false
  | x :: xt, y :: yt =>
    if x.toNat < y.toNat then true
    else if y.toNat < x.toNat then false
    else listCharLt xt yt

/-- String order via `listCharLt`. -/
def strLt (a b : String) : Bool := listCharLt a.data b.data

/-- Insert into a key-sorted association list, overwriting an existing key
(as a later duplicate JSON key overwrites in Go decoding). -/
def insertKV (k : String) (v : Jval) : List (String × Jval) → List (String × Jval)
  | [] => [(k, v)]
  | (k', v') :: rest =>
    if k = k' then (k, v) :: rest
    else if strLt k k' then (k, v) :: (k', v') :: rest
    else (k', v') :: insertKV k v rest

/-- Exact-key lookup in a decoded object. -/
def lookupKV (k : String) : List (String × Jval) → Option Jval
  | [] => none
  | (k', v) :: rest => if k = k' then some v else lookupKV k rest

/-- The two-character escape table of RFC JSON (the `\uXXXX` form is
outside the modelled subset). -/
def escTable : List (Char × Char) :=
  [('"', '"'), ('\\', '\\'), ('/', '/'), ('n', '\n'), ('t', '\t'),
   ('r', '\r'), ('b', Char.ofNat 8), ('f', Char.ofNat 12)]

/-- JSON string-escape mapping via the table. -/
def escCharJ (c : Char) : Option Char :=
  (escTable.find? (fun q => q.1 == c)).map (fun q => q.2)

/-- Parse the body of a JSON string literal (opening quote already
consumed); returns the decoded characters and the rest of the input. -/
def parseStrL : List Char → Option (List Char × List Char)
  | [] => none
  | '"' :: r => some ([], r)
  | '\\' :: e :: r =>
    match escCharJ e with
    | some c => (parseStrL r).map (fun p => (c :: p.1, p.2))
    | none => none
  | '\\' :: [] => none
  | c :: r => (parseStrL r).map (fun p => (c :: p.1, p.2))

/-- Split a leading run of ASCII digits. -/
def splitDigits : List Char → List Char × List Char
  | [] => ([], [])
  | c :: cs =>
    if isDigitC c then
      let p := splitDigits cs
      (c :: p.1, p.2)
    else ([], c :: cs)

/-- Digits to a natural number. -/
def digitsToNat (l : List Char) : Nat :=
  l.foldl (fun n c => n * 10 + (c.toNat - 48)) 0

/-- Parse a JSON number in the integer subset. -/
def parseNumL : List Char → Option (Int × List Char)
  | '-' :: cs =>
    match splitDigits cs with
    | ([], _) => none
    | (ds, r) => some (-(digitsToNat ds : Int), r)
  | l =>
    match splitDigits l with
    | ([], _) => none
    | (ds, r) => some ((digitsToNat ds : Int), r)

mutual

/-- Fuelled recursive-descent JSON value parser (Go's scanner, restricted
to the subset described in the header). -/
def parseVal : Nat → List Char → Option (Jval × List Char)
  | 0, _ => none
  | fuel + 1, l =>
    match l with
    | [] => none
    | c :: cs =>
      if c = lbrace then
        match skipWs cs with
        | [] => none
        | d :: ds =>
          if d = rbrace then some (.obj [], ds)
          else parseMembers fuel (d :: ds) []
      else if c = '[' then
        match skipWs cs with
        | [] => none
        | d :: ds =>
          if d = ']' then some (.arr [], ds)
          else parseItems fuel (d :: ds) []
      else if c = '"' then
        match parseStrL cs with
        | some (s, r) => some (.str ⟨s⟩, r)
        | none => none
      else if c = 't' then
        match cs with
        | 'r' :: 'u' :: 'e' :: r => some (.bool true, r)
        | _ => none
      else if c = 'f' then
        match cs with
        | 'a' :: 'l' :: 's' :: 'e' :: r => some (.bool false, r)
        | _ => none
      else if c = 'n' then
        match cs with
        | 'u' :: 'l' :: 'l' :: r => some (.null, r)
        | _ => none
      else if c = '-' ∨ isDigitC c = true then
        match parseNumL (c :: cs) with
        | some (n, r) => some (.num n, r)
        | none => none
      else none

/-- Object members: `"key" : value` separated by commas, closed by `}`. -/
def parseMembers : Nat → List Char → List (String × Jval) →
    Option (Jval × List Char)
  | 0, _, _ => none
  | fuel + 1, l, acc =>
    match l with
    | [] => none
    | c :: cs =>
      if c = '"' then
        match parseStrL cs with
        | some (k, r1) =>
          match skipWs r1 with
          | ':' :: r2 =>
            match parseVal fuel (skipWs r2) with
            | some (v, r3) =>
              match skipWs r3 with
              | ',' :: r4 =>
                parseMembers fuel (skipWs r4) (insertKV ⟨k⟩ v acc)
              | d :: r4 =>
                if d = rbrace then some (.obj (insertKV ⟨k⟩ v acc), r4)
                else none
              | [] => none
            | none => none
          | _ => none
        | none => none
      else none

/-- Array items separated by commas, closed by `]`. -/
def parseItems : Nat → List Char → List Jval → Option (Jval × List Char)
  | 0, _, _ => none
  | fuel + 1, l, acc =>
    match parseVal fuel l with
    | some (v, r1) =>
      match skipWs r1 with
      | ',' :: r2 => parseItems fuel (skipWs r2) (acc ++ [v])
      | ']' :: r2 => some (.arr (acc ++ [v]), r2)
      | _ => none
    | none => none

end

/-- The top-level trailing check of the decoder: a parsed value stands only
when nothing but whitespace follows it (anything else is Go's
"invalid character after top-level value"). -/
def topWrap : Option (Jval × List Char) → Option Jval
  | some (v, r) => if skipWs r = [] then some v else none
  | none => none

/-- Go `json.Unmarshal` of a whole byte slice into `interface{}`: leading
whitespace, one value, then only trailing whitespace. -/
def parseFull (l : List Char) : Option Jval :=
  topWrap (parseVal (l.length + 1) (skipWs l))

/-- Escape and quote a string for JSON output (subset: quote, backslash and
the common control characters; the agent's data contains nothing else). -/
def quoteJ (s : String) : String :=
  "\"" ++ ⟨s.data.foldr (fun c acc =>
    if c == '"' then '\\' :: '"' :: acc
    else if c == '\\' then '\\' :: '\\' :: acc
    else if c == '\n' then '\\' :: 'n' :: acc
    else if c == '\t' then '\\' :: 't' :: acc
    else if c == '\r' then '\\' :: 'r' :: acc
    else c :: acc) []⟩ ++ "\""

mutual

/-- Go `json.Marshal` of a decoded value (object keys already sorted by the
canonical representation, matching Go's sorted map-key serialisation). -/
def marshalV : Jval → String
  | .null => "null"
  | .bool true => "true"
  | .bool false => "false"
  | .num n => toString n
  | .str s => quoteJ s
  | .arr xs => "[" ++ marshalArr xs ++ "]"
  | .obj kvs => "\x7b" ++ marshalObj kvs ++ "\x7d"

/-- Serialise array elements. -/
def marshalArr : List Jval → String
  | [] => ""
  | [x] => marshalV x
  | x :: xs => marshalV x ++ "," ++ marshalArr xs

/-- Serialise object members. -/
def marshalObj : List (String × Jval) → String
  | [] => ""
  | [(k, v)] => quoteJ k ++ ":" ++ marshalV v
  | (k, v) :: kvs => quoteJ k ++ ":" ++ marshalV v ++ "," ++ marshalObj kvs

end

/-! ## Tool-call extraction (`agent.go` `extractToolCall`, `parseParams`) -/

/-- The pattern `"tool"` (with quotes) gating format 1. -/
def quotToolPat : List Char := '"' :: 't' :: 'o' :: 'o' :: 'l' :: '"' :: []

/-- The pattern `"params"` (with quotes) gating format 1. -/
def quotParamsPat : List Char :=
  '"' :: 'p' :: 'a' :: 'r' :: 'a' :: 'm' :: 's' :: '"' :: []

/-- Go `json.Unmarshal` into the anonymous struct
`{ Tool string; Params map[string]interface{} }`: the whole input must be
one JSON object (or `null`, which leaves the zero struct and hence an empty
tool name — observably identical to a parse failure here because the caller
only acts on a non-empty tool name); an absent field keeps its zero value,
a wrongly-typed field is a decode error. -/
def unmarshalToolCall (l : List Char) :
    Option (String × Option (List (String × Jval))) :=
  match parseFull l with
  | some (.obj kvs) =>
    let toolF : Option String :=
      match lookupKV "tool" kvs with
      | none => some ""
      | some (.str s) => some s
      | some _ => none
    let paramsF : Option (Option (List (String × Jval))) :=
      match lookupKV "params" kvs with
      | none => some none
      | some .null => some none
      | some (.obj m) => some (some m)
      | some _ => none
    match toolF, paramsF with
    | some t, some p => some (t, p)
    | _, _ => none
  | _ => none

/-- `json.Marshal(toolCall.Params)`: a nil map marshals to `null`. -/
def marshalParams : Option (List (String × Jval)) → String
  | none => "null"
  | some m => marshalV (.obj m)

/-- Format 1 of `extractToolCall` (agent.go:315-326): the substring gate on
`"tool"`/`"params"`, a whole-response unmarshal, and the non-empty tool-name
check; `none` means fall through to the next format. -/
def structuredExtract (l : List Char) : Option (List Char × List Char) :=
  if containsSub quotToolPat l && containsSub quotParamsPat l then
    match unmarshalToolCall l with
    | some (t, p) => if t ≠ "" then some (t.data, (marshalParams p).data) else none
    | none => none
  else none

/-- The fence-opening pattern `` ```tool: `` (8 characters). -/
def fencePat : List Char :=
  '`' :: '`' :: '`' :: 't' :: 'o' :: 'o' :: 'l' :: ':' :: []

/-- The closing-fence pattern `` ``` ``. -/
def ticksPat : List Char := '`' :: '`' :: '`' :: []

/-- Format 2 of `extractToolCall` (agent.go:330-347): a `` ```tool: ``
block; its trimmed body is split at the first newline into tool name and
parameter text; without a closing fence the format falls through. -/
def fencedExtract (l : List Char) : Option (List Char × List Char) :=
  match indexOfSub fencePat l with
  | none => none
  | some start =>
    let after := l.drop (start + 8)
    match indexOfSub ticksPat after with
    | none => none
    | some stop =>
      let block := after.take stop
      match splitFirst ('\n' :: []) (trimSpaceL block) with
      | [first] => some (trimSpaceL first, [])
      | first :: second :: _ => some (trimSpaceL first, trimSpaceL second)
      | [] => none

/-- The legacy marker `使用工具:`. -/
def markerPat : List Char := '使' :: '用' :: '工' :: '具' :: ':' :: []

/-- Format 3 of `extractToolCall` (agent.go:350-359): text after the fixed
marker is trimmed and split at the first space into tool name and the rest. -/
def legacyExtract (l : List Char) : Option (List Char × List Char) :=
  if containsSub markerPat l then
    match splitOnSub markerPat l with
    | _ :: part1 :: _ =>
      match splitFirst (' ' :: []) (trimSpaceL part1) with
      | [only] => some (only, [])
      | a :: b :: _ => some (a, trimSpaceL b)
      | [] => none
    | _ => none
  else none

/-- Formats 2 and 3 in order (the fall-through tail of `extractToolCall`). -/
def fallbackExtract (l : List Char) : List Char × List Char :=
  match fencedExtract l with
  | some r => r
  | none =>
    match legacyExtract l with
    | some r => r
    | none => ([], [])

/-- `extractToolCall` (agent.go:312-361): the three formats in fixed
priority; the empty pair when none matches. -/
def extractToolCallL (l : List Char) : List Char × List Char :=
  match structuredExtract l with
  | some r => r
  | none => fallbackExtract l

/-- String-level `extractToolCall`. -/
def extractToolCall (s : String) : String × String :=
  let r := extractToolCallL s.data
  (⟨r.1⟩, ⟨r.2⟩)

/-- Go `json.Unmarshal` into a `map[string]interface{}`: the whole input
must be a JSON object (or `null`, which leaves the map nil). -/
def unmarshalMap (l : List Char) : Option (List (String × Jval)) :=
  match parseFull l with
  | some (.obj kvs) => some kvs
  | some .null => some []
  | _ => none

/-- `parseParams` (agent.go:620-640): trim; empty text gives an empty map;
otherwise JSON first, then the `k=v,k2=v2` fallback (entries without `=`
are skipped, values stay strings); parsing never fails. -/
def parseParamsL (text : List Char) : List (String × Jval) :=
  let t := trimSpaceL text
  if t = [] then []
  else
    match unmarshalMap t with
    | some m => m
    | none =>
      (splitOnSub (',' :: []) t).foldl (fun acc p =>
        match splitFirst ('=' :: []) (trimSpaceL p) with
        | [k, v] => insertKV ⟨k⟩ (.str ⟨v⟩) acc
        | _ => acc) []

/-- String-level `parseParams`. -/
def parseParams (s : String) : List (String × Jval) := parseParamsL s.data

/-! ## Engine data model (`agent.go`) -/

/-- A message of the engine's working history (`agent.Message`). -/
structure Msg where
  role : String
  content : String
deriving DecidableEq

/-- The slice of `agent.Config` that the prompt builder reads
(`config.ModelConfig.Prompt`, the fixed system instruction). -/
structure Config where
  prompt : String
deriving DecidableEq

/-- The engine state `SetConversationID` operates on: the active session id
and the working message history (`EinoAgent.currentConversationID`,
`EinoAgent.messageHistory`). -/
structure EngineState where
  currentConversationID : String
  messageHistory : List Msg
deriving DecidableEq

/-- A message held by the memory collaborator (`memory.Message`; the
timestamp is a number here). -/
structure MemMsg where
  role : String
  content : String
  ts : Nat
deriving DecidableEq

/-- The memory collaborator's conversation store: internal session id to
transcript (`memory.SimpleMemory.conversations`, projected to messages). -/
def Mem : Type := List (String × List MemMsg)

/-- `GetConversation`: `none` is the "对话不存在" error. -/
def lookupMem (m : Mem) (cid : String) : Option (List MemMsg) :=
  match m with
  | [] => none
  | (k, msgs) :: rest => if k = cid then some msgs else lookupMem rest cid

/-- `SetConversationID` (agent.go:258-275): an all-whitespace id is
rejected before any mutation; otherwise the id is switched and, when the
memory collaborator holds the conversation, the working history is rebuilt
from its transcript (the error and missing-conversation branches leave the
history untouched).  The second component is the returned error. -/
def setConversationID (mem : Option Mem) (a : EngineState) (cid : String) :
    EngineState × Option String :=
  if trimSpaceS cid = "" then (a, some "会话ID不能为空")
  else
    let a1 := { a with currentConversationID := cid }
    match mem with
    | none => (a1, none)
    | some m =>
      match lookupMem m cid with
      | some conv =>
        ({ a1 with messageHistory := conv.map (fun mm => ⟨mm.role, mm.content⟩) },
         none)
      | none => (a1, none)

/-! ## Prompt construction (`agent.go` `buildPrompt`) -/

/-- Render a system part plus a run of history messages and the trailing
`assistant: ` anchor — the shape shared by `buildPrompt` and the
specification-side statement of which messages are included. -/
def promptOver (cfg : Config) (msgs : List Msg) : String :=
  (msgs.foldl (fun acc m => acc ++ m.role ++ ": " ++ m.content ++ "\n\n")
      (if cfg.prompt ≠ "" then "system: " ++ cfg.prompt ++ "\n\n" else "")) ++
    "assistant: "

/-- `buildPrompt` (agent.go:567-592): system instruction, then the history
from `startIdx` (all of it, or only the last 10 when longer than 10), then
the `assistant: ` anchor. -/
def buildPrompt (cfg : Config) (hist : List Msg) : String :=
  promptOver cfg
    (hist.drop (if hist.length > 10 then hist.length - 10 else 0))

/-! ## Capability registry (`tools/knowledge_base.go` `ToolManager`) -/

/-- The registry: tool name to capability; a capability takes the decoded
parameter map and yields a rendered result or an execution error. -/
def ToolManager : Type := List (String × (List (String × Jval) → Except String String))

/-- `ToolManager.ExecuteTool`: unregistered names fail with the literal
`tool not found` error. -/
def executeTool (tm : ToolManager) (name : String)
    (params : List (String × Jval)) : Except String String :=
  match tm with
  | [] => .error "tool not found"
  | (n, f) :: rest => if n = name then f params else executeTool rest name params

/-- `EinoAgent.ExecuteTool` (agent.go:364-369): a missing tool manager is
its own error, otherwise delegate to the registry. -/
def agentExecuteTool (tm : Option ToolManager) (name : String)
    (params : List (String × Jval)) : Except String String :=
  match tm with
  | none => .error "工具管理器未初始化"
  | some t => executeTool t name params

/-- The text of a capability outcome as `Process`/`ProcessStream` inject it
(success renders the value; failure renders
`工具 <name> 执行失败: <err>`, agent.go:421/546). -/
def toolResultText (name : String) : Except String String → String
  | .ok r => r
  | .error e => "工具 " ++ name ++ " 执行失败: " ++ e

/-- The system-role message carrying a capability outcome into the phase-2
context (`工具(<name>)输出: <result>`, agent.go:426/554). -/
def toolOutputMsg (name : String) (res : Except String String) : Msg :=
  ⟨"system", "工具(" ++ name ++ ")输出: " ++ toolResultText name res⟩

/-! ## `Process` (agent.go:372-468) -/

/-- The observable outcome of one `Process` turn: the returned reply (or
error), the final working history and the sequence of messages appended to
the memory collaborator for the active session.  The context-carried
conversation id rebinding (agent.go:374) is not modelled: the API layer
always passes a value-free `context.Background()` (server.go:111,258), so
that branch is dead in this repository; the fresh-id bootstrap keeps the
session id non-empty, hence both persistence guards pass and persistence is
modelled as the list of appends. -/
structure ProcOut where
  reply : Except String String
  hist : List Msg
  persisted : List Msg

/-- `Process`: append the user turn, phase-1 generate, extract a tool call;
with a call: execute (failures become text), inject the result as a
system-role message, rebuild the prompt, phase-2 generate, fallback on
empty; without a call: the phase-1 output is the reply, fallback on empty. -/
def process (tm : Option ToolManager) (llm : String → Except String String)
    (cfg : Config) (hist0 : List Msg) (input : String) : ProcOut :=
  let h1 := hist0 ++ [⟨"user", input⟩]
  match llm (buildPrompt cfg h1) with
  | .error e => ⟨.error ("生成响应失败: " ++ e), h1, [⟨"user", input⟩]⟩
  | .ok preResp =>
    let tc := extractToolCall preResp
    if tc.1 ≠ "" then
      let params := parseParams tc.2
      let h2 := h1 ++ [toolOutputMsg tc.1 (agentExecuteTool tm tc.1 params)]
      match llm (buildPrompt cfg h2) with
      | .error e => ⟨.error ("二次生成失败: " ++ e), h2, [⟨"user", input⟩]⟩
      | .ok finalResp =>
        let fr := if finalResp = "" then "抱歉，我无法生成有效的响应。请重试。"
                  else finalResp
        ⟨.ok fr, h2 ++ [⟨"assistant", fr⟩], [⟨"user", input⟩, ⟨"assistant", fr⟩]⟩
    else
      let resp := if preResp = "" then "抱歉，我无法生成有效的响应。请重新尝试您的问题。"
                  else preResp
      ⟨.ok resp, h1 ++ [⟨"assistant", resp⟩], [⟨"user", input⟩, ⟨"assistant", resp⟩]⟩

/-! ## `ProcessStream` (agent.go:471-564) and the streaming event protocol -/

/-- `sendThinkingEvent` (agent.go:643-647): the marker string placed on the
caller channel. -/
def thinkMark (eventType message : String) : String :=
  "[THINKING:" ++ eventType ++ ":" ++ message ++ "]"

/-- The fixed thinking-marker messages of `ProcessStream`. -/
def analyzingMsg : String := "正在分析您的问题..."

/-- Message of the `generating` marker. -/
def generatingMsg : String := "正在生成回复..."

/-- Message of the `tool_result` marker. -/
def toolResultMsg : String := "工具返回结果，正在生成最终回复..."

/-- Concatenate streamed chunks (`strings.Builder` in the relay goroutine). -/
def concatChunks (chunks : List String) : String :=
  chunks.foldl (fun acc c => acc ++ c) ""

/-- The observable outcome of one `ProcessStream` turn, as linearised per
the header note: `items` is the ordered sequence of strings placed on the
caller-facing channel, `closes` counts how often that channel is closed
(the relay goroutine's deferred close fires exactly when the internal
channel is closed, which the backend's `GenerateStream` does on return —
and never fires when `ProcessStream` bails out before the streaming call),
`ret` is `ProcessStream`'s returned error, and `hist`/`persisted` are as in
`ProcOut` (the relay goroutine records the chunk concatenation only when it
is non-empty). -/
structure StreamOut where
  items : List String
  closes : Nat
  ret : Option String
  hist : List Msg
  persisted : List Msg

/-- `ProcessStream`: the streaming backend is an oracle from a prompt to
(chunks placed on the sink, returned error); per the backend contract
(ollama.go:145, openai.go:60) the sink is closed on return. -/
def processStream (tm : Option ToolManager)
    (llm : String → Except String String)
    (streamGen : String → List String × Option String)
    (cfg : Config) (hist0 : List Msg) (input : String) : StreamOut :=
  let h1 := hist0 ++ [⟨"user", input⟩]
  let p1 := buildPrompt cfg h1
  match llm p1 with
  | .error e =>
    { items := [thinkMark "analyzing" analyzingMsg]
      closes := 0
      ret := some ("生成响应失败: " ++ e)
      hist := h1
      persisted := [⟨"user", input⟩] }
  | .ok preResp =>
    let tc := extractToolCall preResp
    if tc.1 ≠ "" then
      let params := parseParams tc.2
      let exec := agentExecuteTool tm tc.1 params
      let toolItem :=
        match exec with
        | .ok _ => thinkMark "tool_result" toolResultMsg
        | .error e => thinkMark "tool_error" ("工具执行失败: " ++ e)
      let h2 := h1 ++ [toolOutputMsg tc.1 exec]
      let sg := streamGen (buildPrompt cfg h2)
      let resp := concatChunks sg.1
      { items := [thinkMark "analyzing" analyzingMsg,
                  thinkMark "tool_call" ("准备调用工具: " ++ tc.1),
                  toolItem,
                  thinkMark "generating" generatingMsg] ++ sg.1
        closes := 1
        ret := sg.2
        hist := if resp ≠ "" then h2 ++ [⟨"assistant", resp⟩] else h2
        persisted := if resp ≠ "" then [⟨"user", input⟩, ⟨"assistant", resp⟩]
                     else [⟨"user", input⟩] }
    else
      let sg := streamGen p1
      let resp := concatChunks sg.1
      { items := [thinkMark "analyzing" analyzingMsg,
                  thinkMark "generating" generatingMsg] ++ sg.1
        closes := 1
        ret := sg.2
        hist := if resp ≠ "" then h1 ++ [⟨"assistant", resp⟩] else h1
        persisted := if resp ≠ "" then [⟨"user", input⟩, ⟨"assistant", resp⟩]
                     else [⟨"user", input⟩] }

/-- A caller-visible event of the streaming protocol (server.go:240-282):
the initial `meta` frame, a thinking marker, a content delta, or the
terminal `done` frame. -/
inductive Ev where
  | meta
  | thinking (t : String) (m : String)
  | content (s : String)
  | done
deriving DecidableEq

/-- The `[THINKING:` pattern (10 characters). -/
def thinkPat : List Char :=
  '[' :: 'T' :: 'H' :: 'I' :: 'N' :: 'K' :: 'I' :: 'N' :: 'G' :: ':' :: []

/-- Recover the event type and message from a thinking marker; anything not
of that shape is a content delta. -/
def parseThinkMark (l : List Char) : Option (List Char × List Char) :=
  if leadsWith thinkPat l then
    if l.getLast? = some ']' then
      match splitFirst (':' :: []) ((l.drop 10).dropLast) with
      | [t, m] => some (t, m)
      | _ => none
    else none
  else none

/-- Classify a channel string as the front end does. -/
def toEv (s : String) : Ev :=
  match parseThinkMark s.data with
  | some (t, m) => .thinking ⟨t⟩ ⟨m⟩
  | none => .content s

/-- The SSE trace the relay loop in `handleChatStream` produces from one
`ProcessStream` run: the `meta` frame first, one data frame per channel
string, and the `done` frame exactly when the channel gets closed. -/
def serverTrace (out : StreamOut) : List Ev :=
  Ev.meta :: out.items.map toEv ++ (if out.closes ≥ 1 then [Ev.done] else [])

/-- The event pattern claimed for a tool-call turn: `meta`, `analyzing`,
`tool_call`, one of `tool_result`/`tool_error`, `generating`, one or more
content deltas, then `done` and nothing further. -/
def deltasThenDone : List Ev → Bool
  | Ev.content _ :: Ev.done :: [] => true
  | Ev.content _ :: rest => deltasThenDone rest
  | _ => false

/-- Decide whether a trace matches the claimed tool-call event sequence. -/
def claimedToolTurnSeq : List Ev → Bool
  | Ev.meta :: Ev.thinking t1 _ :: Ev.thinking t2 _ :: Ev.thinking t3 _ ::
      Ev.thinking t4 _ :: rest =>
    t1 == "analyzing" && t2 == "tool_call" &&
      (t3 == "tool_result" || t3 == "tool_error") && t4 == "generating" &&
      deltasThenDone rest
  | _ => false

/-! ## Conversation identity binder (`api/server.go`) -/

/-- The server-side binder state: the set of known web conversation ids
(`Server.conversations` keys), the web-to-agent id table
(`Server.agentConvMap`), the engine's current session id, and a counter
supplying the fresh ids that stand in for `generateID`'s random ids (the
source draws 10 random characters; the supply of pairwise-distinct fresh
ids is what matters to the binder, not their spelling). -/
structure BinderState where
  convs : List String
  agentConvMap : List (String × String)
  agentCurrent : String
  counter : Nat
deriving DecidableEq

/-- Go map read `m[k]`. -/
def lookupBind (m : List (String × String)) (k : String) : Option String :=
  match m with
  | [] => none
  | (k', v) :: rest => if k' = k then some v else lookupBind rest k

/-- Go map write `m[k] = v`. -/
def insertBind (m : List (String × String)) (k v : String) :
    List (String × String) :=
  match m with
  | [] => [(k, v)]
  | (k', v') :: rest =>
    if k' = k then (k, v) :: rest else (k', v') :: insertBind rest k v

/-- The fresh web conversation id minted for request `n`. -/
def freshId (n : Nat) : String := "conv_" ++ toString n

/-- The id component of `agent.SetConversationID` as the binder calls it
(an ignored error on a blank id leaves the engine's session unchanged). -/
def setAgentConv (s : BinderState) (aid : String) : BinderState :=
  if trimSpaceS aid = "" then s else { s with agentCurrent := aid }

/-- The binder logic of `handleChatStream` (server.go:192-225): look the
external handle up among known conversations, minting a fresh local handle
bound to the engine's current session id when absent; then resolve the
bound agent session id, switch the engine to it, and return it (the
`agentConvID` reported in the `meta` frame).  `handleChat`
(server.go:97-126) performs the same binding steps. -/
def resolveStream (s : BinderState) (handle : String) : String × BinderState :=
  let step1 : String × BinderState :=
    if handle ≠ "" && s.convs.contains handle then (handle, s)
    else
      let nid := freshId s.counter
      (nid, { s with convs := nid :: s.convs
                     agentConvMap := insertBind s.agentConvMap nid s.agentCurrent
                     counter := s.counter + 1 })
  match lookupBind step1.2.agentConvMap step1.1 with
  | some aid => (aid, setAgentConv step1.2 aid)
  | none =>
    (step1.2.agentCurrent,
     { step1.2 with
         agentConvMap := insertBind step1.2.agentConvMap step1.1 step1.2.agentCurrent })

/-! ## Theorems -/

/-- C1: the structured inline object, its fenced-block equivalent and its
legacy-marker equivalent for the calculator call all extract — via
`extractToolCall` followed by `parseParams` — to the identical pair: tool
name `calculator` and the parameter map `{operation: add, a: 10, b: 5}`. -/
theorem c1_three_formats_extract_identical :
    (extractToolCall "\x7b\"tool\":\"calculator\",\"params\":\x7b\"operation\":\"add\",\"a\":10,\"b\":5\x7d\x7d").1
        = "calculator" ∧
    parseParams (extractToolCall "\x7b\"tool\":\"calculator\",\"params\":\x7b\"operation\":\"add\",\"a\":10,\"b\":5\x7d\x7d").2
        = [("a", .num 10), ("b", .num 5), ("operation", .str "add")] ∧
    (extractToolCall "```tool:calculator\n\x7b\"operation\":\"add\",\"a\":10,\"b\":5\x7d\n```").1
        = "calculator" ∧
    parseParams (extractToolCall "```tool:calculator\n\x7b\"operation\":\"add\",\"a\":10,\"b\":5\x7d\n```").2
        = [("a", .num 10), ("b", .num 5), ("operation", .str "add")] ∧
    (extractToolCall "使用工具: calculator \x7b\"operation\":\"add\",\"a\":10,\"b\":5\x7d").1
        = "calculator" ∧
    parseParams (extractToolCall "使用工具: calculator \x7b\"operation\":\"add\",\"a\":10,\"b\":5\x7d").2
        = [("a", .num 10), ("b", .num 5), ("operation", .str "add")] :=
  ⟨rfl, rfl, rfl, rfl, rfl, rfl⟩

/-- C9: `SetConversationID("")` always fails with the invalid-argument
error `会话ID不能为空` and returns with the engine state — session id,
working history, binder-visible state — unchanged, whatever the memory
collaborator holds. -/
theorem c9_empty_id_invalid_no_mutation (mem : Option Mem) (a : EngineState) :
    setConversationID mem a "" = (a, some "会话ID不能为空") := rfl

/-- C8: `buildPrompt` places after the fixed system instruction exactly the
whole history (in original order) when it holds at most 10 messages, and
exactly the most recent 10 in oldest-first order — the reversed take-10 of
the reversed history — when it holds more. -/
theorem c8_build_prompt_bounded_history (cfg : Config) (hist : List Msg) :
    buildPrompt cfg hist =
      promptOver cfg
        (if hist.length ≤ 10 then hist else (hist.reverse.take 10).reverse) := by
  unfold buildPrompt
  congr 1
  rcases Nat.lt_or_ge 10 hist.length with h | h
  · rw [if_pos h, if_neg (by omega), ← List.rtake_eq_reverse_take_reverse]
    rfl
  · rw [if_neg (by omega), if_pos h, List.drop_zero]

/-- Reading back a binding just written. -/
theorem lookupBind_insert_self (m : List (String × String)) (k v : String) :
    lookupBind (insertBind m k v) k = some v := by
  induction m with
  | nil => simp [insertBind, lookupBind]
  | cons kv rest ih =>
    obtain ⟨k', v'⟩ := kv
    by_cases hk : k' = k
    · subst hk
      simp [insertBind, lookupBind]
    · simp [insertBind, lookupBind, hk, ih]

/-- Resolving a handle the binder has never seen always answers with the
engine's current session id and leaves that id unchanged. -/
theorem resolve_not_seen (s : BinderState) (h : String)
    (hns : s.convs.contains h = false) :
    (resolveStream s h).1 = s.agentCurrent ∧
      (resolveStream s h).2.agentCurrent = s.agentCurrent := by
  unfold resolveStream
  simp only [hns, Bool.and_false, Bool.false_eq_true, if_false,
    lookupBind_insert_self]
  unfold setAgentConv
  split <;> simp

/-- C2 (amended): resolving the same never-seen external handle twice in a
row (no intervening switch) yields the same internal session id both times;
but two distinct never-seen external handles also resolve to the same
internal id — both answers are the engine's current session id at binding
time, which never-seen resolution does not change.  (The hypotheses say the
handles are unknown to the binder at their respective resolutions.) -/
theorem c2_never_seen_resolution_amended (s : BinderState) (h1 h2 : String)
    (hh1 : s.convs.contains h1 = false)
    (hh2 : ((resolveStream s h1).2).convs.contains h2 = false) :
    (resolveStream s h1).1 = s.agentCurrent ∧
      (resolveStream (resolveStream s h1).2 h2).1 = s.agentCurrent := by
  obtain ⟨r1, r2⟩ := resolve_not_seen s h1 hh1
  obtain ⟨r3, _⟩ := resolve_not_seen (resolveStream s h1).2 h2 hh2
  exact ⟨r1, r3.trans r2⟩

/-- C2 witness: a concrete binder state and the same never-seen handle
resolved twice yield the agent's session id `agent_conv_1` both times. -/
theorem c2_never_seen_resolution_amended_witness :
    (resolveStream ⟨[], [], "agent_conv_1", 0⟩ "ext1").1 = "agent_conv_1" ∧
      (resolveStream (resolveStream ⟨[], [], "agent_conv_1", 0⟩ "ext1").2
          "ext1").1 = "agent_conv_1" :=
  c2_never_seen_resolution_amended ⟨[], [], "agent_conv_1", 0⟩ "ext1" "ext1"
    (by decide) (by decide)

/-- C2 counterexample: from a concrete binder state, the two distinct
never-seen external handles `h1` and `h2` do **not** resolve to two
distinct internal ids — both resolve to the engine's current session id, so
the resolved ids are equal. -/
theorem c2_distinct_handles_counterexample :
    ("h1" : String) ≠ "h2" ∧
      (BinderState.mk [] [] "agent_conv_1" 0).convs.contains "h1" = false ∧
      ((resolveStream ⟨[], [], "agent_conv_1", 0⟩ "h1").2).convs.contains "h2"
          = false ∧
      (resolveStream ⟨[], [], "agent_conv_1", 0⟩ "h1").1 =
        (resolveStream (resolveStream ⟨[], [], "agent_conv_1", 0⟩ "h1").2 "h2").1 := by
  refine ⟨by decide, by decide, by decide, by decide⟩

/-- C3 counterexample: switching to the non-empty id `c2`, which the memory
collaborator does not hold, succeeds and leaves the previous session's
working history in place — the history is *not* wholesale replaced by a
freshly loaded transcript for `c2` (none exists). -/
theorem c3_unknown_id_keeps_history_counterexample :
    setConversationID (some ([("c1", [⟨"user", "你好", 1⟩])] : Mem))
        ⟨"c1", [⟨"user", "你好"⟩, ⟨"assistant", "嗨"⟩]⟩ "c2" =
      (⟨"c2", [⟨"user", "你好"⟩, ⟨"assistant", "嗨"⟩]⟩, none) ∧
      lookupMem ([("c1", [⟨"user", "你好", 1⟩])] : Mem) "c2" = none := by
  exact ⟨by decide, by decide⟩

/-- C3 (amended): for a call to `SetConversationID` with a non-blank id,
*when the memory collaborator holds a transcript for that id* the working
history is wholesale replaced by that transcript (never merged); when it
holds none, the previous session's history is left unchanged (only the
current id switches). -/
theorem c3_set_conversation_reload_amended (mem : Mem) (a : EngineState)
    (cid : String) (hcid : trimSpaceS cid ≠ "") :
    (∀ msgs, lookupMem mem cid = some msgs →
      setConversationID (some mem) a cid =
        (⟨cid, msgs.map (fun mm => ⟨mm.role, mm.content⟩)⟩, none)) ∧
    (lookupMem mem cid = none →
      setConversationID (some mem) a cid =
        ({ a with currentConversationID := cid }, none)) := by
  unfold setConversationID
  rw [if_neg hcid]
  constructor
  · intro msgs h
    dsimp only
    rw [h]
  · intro h
    dsimp only
    rw [h]

/-- C3 witness: a concrete switch to an id the memory collaborator holds
replaces the working history with the loaded transcript. -/
theorem c3_set_conversation_reload_amended_witness :
    setConversationID (some ([("c2", [⟨"user", "hi", 1⟩])] : Mem))
        ⟨"c1", [⟨"assistant", "old"⟩]⟩ "c2" =
      (⟨"c2", [⟨"user", "hi"⟩]⟩, none) :=
  (c3_set_conversation_reload_amended ([("c2", [⟨"user", "hi", 1⟩])] : Mem)
      ⟨"c1", [⟨"assistant", "old"⟩]⟩ "c2" (by decide)).1
    [⟨"user", "hi", 1⟩] (by decide)

/-- C4 (code bug witness): when phase-1 generation fails, `ProcessStream`
returns its error before the streaming call that would close the internal
channel; the relay goroutine therefore never runs its deferred close, and
the caller-facing response channel is closed zero times — not exactly once
as claimed (and as the spec's own channel-discipline sentence requires). -/
theorem c4_phase1_failure_never_closes_channel :
    (processStream none (fun _ => .error "connection refused")
        (fun _ => ([], none)) ⟨""⟩ [] "你好").closes = 0 ∧
      (processStream none (fun _ => .error "connection refused")
          (fun _ => ([], none)) ⟨""⟩ [] "你好").ret =
        some "生成响应失败: connection refused" :=
  ⟨rfl, rfl⟩

/-- C5 counterexample: a streamed tool-call turn whose terminal streaming
call delivers zero chunks emits the event sequence `meta`, `analyzing`,
`tool_call`, `tool_error`, `generating`, `done` — with **no** content delta
— so the claimed pattern (which demands one or more deltas) rejects it even
though a tool call was detected. -/
theorem c5_zero_delta_counterexample :
    (extractToolCall "使用工具: calculator a=1").1 = "calculator" ∧
      serverTrace (processStream none
          (fun _ => .ok "使用工具: calculator a=1")
          (fun _ => ([], some "模型返回了空响应")) ⟨""⟩ [] "算一下") =
        [Ev.meta, .thinking "analyzing" analyzingMsg,
         .thinking "tool_call" "准备调用工具: calculator",
         .thinking "tool_error" "工具执行失败: 工具管理器未初始化",
         .thinking "generating" generatingMsg, Ev.done] ∧
      claimedToolTurnSeq (serverTrace (processStream none
          (fun _ => .ok "使用工具: calculator a=1")
          (fun _ => ([], some "模型返回了空响应")) ⟨""⟩ [] "算一下")) = false := by
  exact ⟨by decide, by decide, by decide⟩

/-- C6 counterexample: a streamed turn whose chunk concatenation is the
empty string records **no** assistant message (neither in the working
history nor in the session log) and emits no fallback text — the channel
carries only the two thinking markers — contradicting the claim that empty
model output is replaced by a fixed fallback message before being recorded
or emitted. -/
theorem c6_stream_empty_no_fallback_counterexample :
    (processStream none (fun _ => .ok "你好！")
        (fun _ => ([], some "模型返回了空响应")) ⟨""⟩ [] "hi").items =
      [thinkMark "analyzing" analyzingMsg, thinkMark "generating" generatingMsg] ∧
    (processStream none (fun _ => .ok "你好！")
        (fun _ => ([], some "模型返回了空响应")) ⟨""⟩ [] "hi").hist =
      [⟨"user", "hi"⟩] ∧
    (processStream none (fun _ => .ok "你好！")
        (fun _ => ([], some "模型返回了空响应")) ⟨""⟩ [] "hi").persisted =
      [⟨"user", "hi"⟩] := by
  exact ⟨by decide, by decide, by decide⟩

/-- C7: when a tool call is detected and the capability invocation fails
(including `tool not found` for an unregistered name and the missing
registry), the turn does not abort: the failure is rendered as text naming
the capability and the error, appended to the working history as a
system-role message, and phase-2 generation still runs and produces the
final reply (recorded and persisted as usual). -/
theorem c7_tool_failure_recovered (tm : Option ToolManager)
    (llm : String → Except String String) (cfg : Config) (hist0 : List Msg)
    (input pre tn pt err final : String)
    (hpre : llm (buildPrompt cfg (hist0 ++ [⟨"user", input⟩])) = .ok pre)
    (hext : extractToolCall pre = (tn, pt))
    (htn : tn ≠ "")
    (hexec : agentExecuteTool tm tn (parseParams pt) = .error err)
    (hfin : llm (buildPrompt cfg (hist0 ++
        [⟨"user", input⟩, toolOutputMsg tn (.error err)])) = .ok final)
    (hfe : final ≠ "") :
    process tm llm cfg hist0 input =
      ⟨.ok final,
       hist0 ++ [⟨"user", input⟩, toolOutputMsg tn (.error err),
         ⟨"assistant", final⟩],
       [⟨"user", input⟩, ⟨"assistant", final⟩]⟩ := by
  have happ : (hist0 ++ [(⟨"user", input⟩ : Msg)]) ++
      [toolOutputMsg tn (.error err)] =
      hist0 ++ [⟨"user", input⟩, toolOutputMsg tn (.error err)] := by
    simp
  unfold process
  dsimp only
  rw [hpre]
  dsimp only
  rw [hext]
  dsimp only
  rw [if_pos htn, hexec, happ, hfin]
  dsimp only
  rw [if_neg hfe]
  simp

/-- C7 witness: a concrete turn in which the model asks for an unregistered
tool; the failure text is injected and the phase-2 reply is returned. -/
theorem c7_tool_failure_recovered_witness :
    process (some []) (fun p =>
        if p = buildPrompt ⟨""⟩ [⟨"user", "hi"⟩] then .ok "使用工具: calc x=1"
        else .ok "done")
      ⟨""⟩ [] "hi" =
      ⟨.ok "done",
       [⟨"user", "hi"⟩, toolOutputMsg "calc" (.error "tool not found"),
        ⟨"assistant", "done"⟩],
       [⟨"user", "hi"⟩, ⟨"assistant", "done"⟩]⟩ := by
  have h := c7_tool_failure_recovered (some []) (fun p =>
      if p = buildPrompt ⟨""⟩ [⟨"user", "hi"⟩] then .ok "使用工具: calc x=1"
      else .ok "done")
    ⟨""⟩ [] "hi" "使用工具: calc x=1" "calc" "x=1" "tool not found" "done"
    (by rfl) (by rfl) (by decide) (by rfl) (by rfl) (by decide)
  simpa using h

/-- C6 (amended): the fixed-fallback substitution for empty model output
holds on the non-streaming path only.  In `Process`, an empty phase-1
output (no tool call is extractable from it) is replaced by the fixed
fallback before being recorded and returned, and an empty phase-2 output on
the tool path is likewise replaced by its fixed fallback; in
`ProcessStream`, an empty concatenation of streamed chunks is **not**
replaced — no assistant message is recorded or persisted and no fallback is
emitted on the channel. -/
theorem c6_empty_output_fallback_amended :
    (∀ (tm : Option ToolManager) (llm : String → Except String String)
        (cfg : Config) (hist0 : List Msg) (input : String),
      llm (buildPrompt cfg (hist0 ++ [⟨"user", input⟩])) = .ok "" →
      process tm llm cfg hist0 input =
        ⟨.ok "抱歉，我无法生成有效的响应。请重新尝试您的问题。",
         hist0 ++ [⟨"user", input⟩,
           ⟨"assistant", "抱歉，我无法生成有效的响应。请重新尝试您的问题。"⟩],
         [⟨"user", input⟩,
          ⟨"assistant", "抱歉，我无法生成有效的响应。请重新尝试您的问题。"⟩]⟩) ∧
    (∀ (tm : Option ToolManager) (llm : String → Except String String)
        (cfg : Config) (hist0 : List Msg) (input pre tn pt : String),
      llm (buildPrompt cfg (hist0 ++ [⟨"user", input⟩])) = .ok pre →
      extractToolCall pre = (tn, pt) → tn ≠ "" →
      llm (buildPrompt cfg (hist0 ++ [⟨"user", input⟩,
        toolOutputMsg tn (agentExecuteTool tm tn (parseParams pt))])) = .ok "" →
      process tm llm cfg hist0 input =
        ⟨.ok "抱歉，我无法生成有效的响应。请重试。",
         hist0 ++ [⟨"user", input⟩,
           toolOutputMsg tn (agentExecuteTool tm tn (parseParams pt)),
           ⟨"assistant", "抱歉，我无法生成有效的响应。请重试。"⟩],
         [⟨"user", input⟩, ⟨"assistant", "抱歉，我无法生成有效的响应。请重试。"⟩]⟩) ∧
    (∀ (tm : Option ToolManager) (llm : String → Except String String)
        (streamGen : String → List String × Option String) (cfg : Config)
        (hist0 : List Msg) (input pre : String) (e : Option String),
      llm (buildPrompt cfg (hist0 ++ [⟨"user", input⟩])) = .ok pre →
      (extractToolCall pre).1 = "" →
      streamGen (buildPrompt cfg (hist0 ++ [⟨"user", input⟩])) = ([], e) →
      processStream tm llm streamGen cfg hist0 input =
        ⟨[thinkMark "analyzing" analyzingMsg, thinkMark "generating" generatingMsg],
         1, e, hist0 ++ [⟨"user", input⟩], [⟨"user", input⟩]⟩) := by
  refine ⟨?_, ?_, ?_⟩
  · intro tm llm cfg hist0 input h
    unfold process
    dsimp only
    rw [h]
    dsimp only
    rw [show extractToolCall "" = ("", "") from rfl]
    dsimp only
    rw [if_neg (fun hc => hc rfl), if_pos rfl]
    simp
  · intro tm llm cfg hist0 input pre tn pt hpre hext htn hfin
    have happ : (hist0 ++ [(⟨"user", input⟩ : Msg)]) ++
        [toolOutputMsg tn (agentExecuteTool tm tn (parseParams pt))] =
        hist0 ++ [⟨"user", input⟩,
          toolOutputMsg tn (agentExecuteTool tm tn (parseParams pt))] := by
      simp
    unfold process
    dsimp only
    rw [hpre]
    dsimp only
    rw [hext]
    dsimp only
    rw [if_pos htn, happ, hfin]
    dsimp only
    rw [if_pos rfl]
    simp
  · intro tm llm streamGen cfg hist0 input pre e hpre hno hsg
    unfold processStream
    dsimp only
    rw [hpre]
    dsimp only
    rw [hno, if_neg (fun hc : ("" : String) ≠ "" => hc rfl), hsg]
    dsimp only
    rw [show concatChunks [] = "" from rfl]
    simp

/-- C6 witness: the three amended behaviours at concrete inputs — an empty
phase-1 reply falls back, an empty phase-2 reply on a tool turn falls back,
and an empty streamed concatenation records nothing and emits no fallback. -/
theorem c6_empty_output_fallback_amended_witness :
    process none (fun _ => .ok "") ⟨""⟩ [] "hi" =
      ⟨.ok "抱歉，我无法生成有效的响应。请重新尝试您的问题。",
       [⟨"user", "hi"⟩,
        ⟨"assistant", "抱歉，我无法生成有效的响应。请重新尝试您的问题。"⟩],
       [⟨"user", "hi"⟩,
        ⟨"assistant", "抱歉，我无法生成有效的响应。请重新尝试您的问题。"⟩]⟩ ∧
    process (some []) (fun p =>
        if p = buildPrompt ⟨""⟩ [⟨"user", "hi"⟩] then .ok "使用工具: calc x=1"
        else .ok "")
      ⟨""⟩ [] "hi" =
      ⟨.ok "抱歉，我无法生成有效的响应。请重试。",
       [⟨"user", "hi"⟩, toolOutputMsg "calc" (.error "tool not found"),
        ⟨"assistant", "抱歉，我无法生成有效的响应。请重试。"⟩],
       [⟨"user", "hi"⟩, ⟨"assistant", "抱歉，我无法生成有效的响应。请重试。"⟩]⟩ ∧
    processStream none (fun _ => .ok "你好！") (fun _ => ([], none)) ⟨""⟩ [] "hi" =
      ⟨[thinkMark "analyzing" analyzingMsg, thinkMark "generating" generatingMsg],
       1, none, [⟨"user", "hi"⟩], [⟨"user", "hi"⟩]⟩ := by
  refine ⟨?_, ?_, ?_⟩
  · simpa using c6_empty_output_fallback_amended.1 none (fun _ => .ok "")
      ⟨""⟩ [] "hi" (by rfl)
  · simpa using c6_empty_output_fallback_amended.2.1 (some [])
      (fun p =>
        if p = buildPrompt ⟨""⟩ [⟨"user", "hi"⟩] then .ok "使用工具: calc x=1"
        else .ok "")
      ⟨""⟩ [] "hi" "使用工具: calc x=1" "calc" "x=1" (by rfl) (by rfl)
      (by decide) (by rfl)
  · simpa using c6_empty_output_fallback_amended.2.2 none (fun _ => .ok "你好！")
      (fun _ => ([], none)) ⟨""⟩ [] "hi" "你好！" none (by rfl) (by rfl) (by rfl)

/-- A pattern is a prefix of itself extended by anything. -/
theorem leadsWith_self_append (p rest : List Char) :
    leadsWith p (p ++ rest) = true := by
  induction p with
  | nil => rfl
  | cons a p ih => simp [leadsWith, ih]

/-- First occurrence of a single character that is absent from the part
before it. -/
theorem indexOfSub_single (c : Char) (t m : List Char) (h : c ∉ t) :
    indexOfSub [c] (t ++ c :: m) = some t.length := by
  induction t with
  | nil => simp [indexOfSub, leadsWith]
  | cons a t ih =>
    have hac : ¬(c == a) = true := by
      simp only [beq_iff_eq]
      intro hca
      exact h (hca ▸ List.mem_cons_self a t)
    have ht : c ∉ t := fun hm => h (List.mem_cons_of_mem a hm)
    simp [indexOfSub, leadsWith, hac, ih ht]

/-- String concatenation concatenates the character lists. -/
theorem data_append (a b : String) : (a ++ b).data = a.data ++ b.data := rfl

/-- Parsing back a thinking marker recovers its event type and message,
for any event type without a colon (all five used by the engine). -/
theorem parseThinkMark_thinkMark (t m : String) (h : ':' ∉ t.data) :
    parseThinkMark (thinkMark t m).data = some (t.data, m.data) := by
  have hdata : (thinkMark t m).data =
      thinkPat ++ (t.data ++ ':' :: (m.data ++ [']'])) := by
    simp [thinkMark, data_append, thinkPat]
  rw [parseThinkMark, hdata, leadsWith_self_append]
  simp only [if_true]
  rw [show (10 : Nat) = thinkPat.length from rfl, List.drop_left]
  have hlast : (thinkPat ++ (t.data ++ ':' :: (m.data ++ [']']))).getLast? =
      some ']' := by
    rw [show thinkPat ++ (t.data ++ ':' :: (m.data ++ [']'])) =
        (thinkPat ++ t.data ++ ':' :: m.data) ++ [']'] by simp]
    exact List.getLast?_concat _
  rw [hlast]
  simp only [if_true]
  have hdl : (t.data ++ ':' :: (m.data ++ [']'])).dropLast =
      t.data ++ ':' :: m.data := by
    rw [show t.data ++ ':' :: (m.data ++ [']']) =
        (t.data ++ ':' :: m.data) ++ [']'] by simp]
    exact List.dropLast_concat
  rw [hdl]
  unfold splitFirst
  rw [indexOfSub_single ':' t.data m.data h]
  have htake : (t.data ++ ':' :: m.data).take t.data.length = t.data :=
    List.take_left _ _
  have hdrop : (t.data ++ ':' :: m.data).drop (t.data.length + 1) = m.data := by
    have hlen : (t.data ++ [':']).length = t.data.length + 1 := by simp
    rw [← hlen, show t.data ++ ':' :: m.data = (t.data ++ [':']) ++ m.data by simp,
      List.drop_left]
  dsimp only
  rw [htake, show ([':'] : List Char).length = 1 from rfl, hdrop]

/-- A thinking marker classifies as its thinking event. -/
theorem toEv_thinkMark (t m : String) (h : ':' ∉ t.data) :
    toEv (thinkMark t m) = .thinking t m := by
  rw [toEv, parseThinkMark_thinkMark t m h]

/-- A chunk that is not marker-shaped classifies as a content delta. -/
theorem toEv_content (s : String) (h : parseThinkMark s.data = none) :
    toEv s = .content s := by
  rw [toEv, h]

/-- C5 (amended): for a streamed turn whose phase-1 output carries a tool
call, the emitted event sequence is exactly `meta`, `thinking(analyzing)`,
`thinking(tool_call)`, exactly one of `thinking(tool_result)` or
`thinking(tool_error)`, `thinking(generating)`, **zero or more** content
deltas (one per streamed chunk), then `done`; nothing follows `done`, and
the caller channel is closed exactly once.  (The chunk hypothesis says the
backend's content deltas are not themselves marker-shaped.) -/
theorem c5_tool_turn_event_sequence_amended (tm : Option ToolManager)
    (llm : String → Except String String)
    (streamGen : String → List String × Option String) (cfg : Config)
    (hist0 : List Msg) (input pre tn pt : String) (chunks : List String)
    (e : Option String)
    (hpre : llm (buildPrompt cfg (hist0 ++ [⟨"user", input⟩])) = .ok pre)
    (hext : extractToolCall pre = (tn, pt))
    (htn : tn ≠ "")
    (hsg : streamGen (buildPrompt cfg (hist0 ++ [⟨"user", input⟩,
      toolOutputMsg tn (agentExecuteTool tm tn (parseParams pt))])) = (chunks, e))
    (hchunks : ∀ c ∈ chunks, parseThinkMark c.data = none) :
    serverTrace (processStream tm llm streamGen cfg hist0 input) =
      [Ev.meta, .thinking "analyzing" analyzingMsg,
       .thinking "tool_call" ("准备调用工具: " ++ tn),
       (match agentExecuteTool tm tn (parseParams pt) with
        | .ok _ => Ev.thinking "tool_result" toolResultMsg
        | .error err => Ev.thinking "tool_error" ("工具执行失败: " ++ err)),
       .thinking "generating" generatingMsg] ++
        chunks.map Ev.content ++ [Ev.done] ∧
      (processStream tm llm streamGen cfg hist0 input).closes = 1 := by
  have happ : (hist0 ++ [(⟨"user", input⟩ : Msg)]) ++
      [toolOutputMsg tn (agentExecuteTool tm tn (parseParams pt))] =
      hist0 ++ [⟨"user", input⟩,
        toolOutputMsg tn (agentExecuteTool tm tn (parseParams pt))] := by
    simp
  have hout : processStream tm llm streamGen cfg hist0 input =
      { items := [thinkMark "analyzing" analyzingMsg,
                  thinkMark "tool_call" ("准备调用工具: " ++ tn),
                  (match agentExecuteTool tm tn (parseParams pt) with
                   | .ok _ => thinkMark "tool_result" toolResultMsg
                   | .error err => thinkMark "tool_error" ("工具执行失败: " ++ err)),
                  thinkMark "generating" generatingMsg] ++ chunks
        closes := 1
        ret := e
        hist := if concatChunks chunks ≠ "" then
            (hist0 ++ [⟨"user", input⟩,
              toolOutputMsg tn (agentExecuteTool tm tn (parseParams pt))]) ++
              [⟨"assistant", concatChunks chunks⟩]
          else hist0 ++ [⟨"user", input⟩,
            toolOutputMsg tn (agentExecuteTool tm tn (parseParams pt))]
        persisted := if concatChunks chunks ≠ "" then
            [⟨"user", input⟩, ⟨"assistant", concatChunks chunks⟩]
          else [⟨"user", input⟩] } := by
    unfold processStream
    dsimp only
    rw [hpre]
    dsimp only
    rw [hext]
    dsimp only
    rw [if_pos htn, happ, hsg]
  rw [hout]
  constructor
  · unfold serverTrace
    dsimp only
    rw [if_pos (by omega)]
    have hmaps : chunks.map toEv = chunks.map Ev.content :=
      List.map_congr_left (fun c hc => toEv_content c (hchunks c hc))
    simp only [List.map_append, List.map_cons, List.map_nil, hmaps]
    rw [toEv_thinkMark "analyzing" _ (by decide),
      toEv_thinkMark "tool_call" _ (by decide),
      toEv_thinkMark "generating" _ (by decide)]
    cases agentExecuteTool tm tn (parseParams pt) with
    | ok r =>
      dsimp only
      rw [toEv_thinkMark "tool_result" _ (by decide)]
      simp
    | error err =>
      dsimp only
      rw [toEv_thinkMark "tool_error" _ (by decide)]
      simp
  · rfl

/-- C5 witness: a concrete streamed tool-call turn (unregistered tool, two
streamed chunks) produces exactly meta, analyzing, tool_call, tool_error,
generating, two content deltas, done — and one channel close. -/
theorem c5_tool_turn_event_sequence_amended_witness :
    serverTrace (processStream (some []) (fun _ => .ok "使用工具: calc x=1")
        (fun _ => (["你好", "！"], none)) ⟨""⟩ [] "问题") =
      [Ev.meta, .thinking "analyzing" analyzingMsg,
       .thinking "tool_call" "准备调用工具: calc",
       .thinking "tool_error" "工具执行失败: tool not found",
       .thinking "generating" generatingMsg,
       .content "你好", .content "！", Ev.done] ∧
      (processStream (some []) (fun _ => .ok "使用工具: calc x=1")
          (fun _ => (["你好", "！"], none)) ⟨""⟩ [] "问题").closes = 1 := by
  have h := c5_tool_turn_event_sequence_amended (some [])
    (fun _ => .ok "使用工具: calc x=1") (fun _ => (["你好", "！"], none))
    ⟨""⟩ [] "问题" "使用工具: calc x=1" "calc" "x=1" ["你好", "！"] none
    (by rfl) (by rfl) (by decide) (by rfl) (by decide)
  simpa using h

/-- An ASCII letter is not the object-open brace. -/
theorem prose_ne_lbrace (c : Char) (hc : isProseChar c = true) : c ≠ lbrace :=
  fun h => absurd (h ▸ hc) (by decide)

/-- An ASCII letter is not the array-open bracket. -/
theorem prose_ne_lbrack (c : Char) (hc : isProseChar c = true) : c ≠ '[' :=
  fun h => absurd (h ▸ hc) (by decide)

/-- An ASCII letter is not the string-open quote. -/
theorem prose_ne_quote (c : Char) (hc : isProseChar c = true) : c ≠ '"' :=
  fun h => absurd (h ▸ hc) (by decide)

/-- An ASCII letter can start no JSON number. -/
theorem prose_not_num (c : Char) (hc : isProseChar c = true) :
    ¬(c = '-' ∨ isDigitC c = true) := by
  rintro (h | h)
  · exact absurd (h ▸ hc) (by decide)
  · have h1 := of_decide_eq_true hc
    have h2 := of_decide_eq_true h
    omega

/-- An ASCII letter is not JSON whitespace. -/
theorem prose_not_ws (c : Char) (hc : isProseChar c = true) : isWsC c = false := by
  have hr := of_decide_eq_true hc
  cases h : isWsC c
  · rfl
  · exfalso
    simp only [isWsC, Bool.or_eq_true, beq_iff_eq] at h
    omega

/-- `skipWs` keeps a non-whitespace head. -/
theorem skipWs_cons_of_not_ws (c : Char) (cs : List Char)
    (h : isWsC c = false) : skipWs (c :: cs) = c :: cs := by
  simp [skipWs, h]

/-- A list containing the brace cannot be whitespace-skipped to nothing. -/
theorem skipWs_ne_nil_of_mem_lbrace (l : List Char) (h : lbrace ∈ l) :
    skipWs l ≠ [] := by
  induction l with
  | nil => cases h
  | cons a t ih =>
    unfold skipWs
    by_cases hw : isWsC a = true
    · rw [hw]
      simp only [if_true]
      rcases List.mem_cons.mp h with h1 | h1
      · exact absurd (h1 ▸ hw) (by decide)
      · exact ih h1
    · rw [Bool.not_eq_true] at hw
      rw [hw]
      simp

/-- An element sitting to the right of `l1` survives on the right of any
decomposition whose left part avoids it. -/
theorem mem_right_of_append (x : Char) (l1 l2 l1' l2' : List Char)
    (h : l1 ++ x :: l2 = l1' ++ l2') (hx : x ∉ l1') : x ∈ l2' := by
  have hmem : x ∈ l1' ++ l2' := by
    rw [← h]
    simp
  rcases List.mem_append.mp hmem with h1 | h1
  · exact absurd h1 hx
  · exact h1

/-- The top-level wrap-up of `parseFull` yields `none` whenever every
successful parse leaves the brace in the unconsumed remainder. -/
theorem trailing_none (X : Option (Jval × List Char))
    (hX : ∀ v r, X = some (v, r) → lbrace ∈ r) : topWrap X = none := by
  cases X with
  | none => rfl
  | some vr =>
    obtain ⟨v, r⟩ := vr
    have hbr := hX v r rfl
    simp only [topWrap]
    rw [if_neg (skipWs_ne_nil_of_mem_lbrace r hbr)]

/-- Prose-leading text never unmarshals as one whole JSON value: with an
ASCII letter first, the scanner can at best read a `true`/`false`/`null`
literal, after which the embedded object's brace is still unconsumed and
trips the trailing-garbage check. -/
theorem parseFull_prose (c : Char) (p tail : List Char)
    (hc : isProseChar c = true) :
    parseFull (c :: p ++ lbrace :: tail) = none := by
  unfold parseFull
  rw [List.cons_append, skipWs_cons_of_not_ws c _ (prose_not_ws c hc)]
  apply trailing_none
  intro v r hm
  simp only [parseVal] at hm
  rw [if_neg (prose_ne_lbrace c hc), if_neg (prose_ne_lbrack c hc),
    if_neg (prose_ne_quote c hc)] at hm
  by_cases hct : c = 't'
  · rw [if_pos hct] at hm
    split at hm
    · next tl heq =>
      injection hm with h1
      injection h1 with hv hr
      rw [← hr]
      exact mem_right_of_append lbrace p tail ['r', 'u', 'e'] tl heq (by decide)
    · exact absurd hm (by simp)
  · rw [if_neg hct] at hm
    by_cases hcf : c = 'f'
    · rw [if_pos hcf] at hm
      split at hm
      · next tl heq =>
        injection hm with h1
        injection h1 with hv hr
        rw [← hr]
        exact mem_right_of_append lbrace p tail ['a', 'l', 's', 'e'] tl heq
          (by decide)
      · exact absurd hm (by simp)
    · rw [if_neg hcf] at hm
      by_cases hcn : c = 'n'
      · rw [if_pos hcn] at hm
        split at hm
        · next tl heq =>
          injection hm with h1
          injection h1 with hv hr
          rw [← hr]
          exact mem_right_of_append lbrace p tail ['u', 'l', 'l'] tl heq
            (by decide)
        · exact absurd hm (by simp)
      · rw [if_neg hcn, if_neg (prose_not_num c hc)] at hm
        exact absurd hm (by simp)

/-- C10: structured-inline detection fires only on a whole-response JSON
object; whenever the response is prose-leading (first character an ASCII
letter, as in any sentence embedding the object) with the object's opening
brace somewhere after it, the structured path extracts nothing and
`extractToolCall` falls through to the fenced-block and legacy-marker
checks. -/
theorem c10_structured_requires_whole_response (c : Char) (p tail : List Char)
    (hc : isProseChar c = true) :
    structuredExtract (c :: p ++ lbrace :: tail) = none ∧
      extractToolCallL (c :: p ++ lbrace :: tail) =
        fallbackExtract (c :: p ++ lbrace :: tail) := by
  have hpf := parseFull_prose c p tail hc
  have hse : structuredExtract (c :: p ++ lbrace :: tail) = none := by
    unfold structuredExtract unmarshalToolCall
    rw [hpf]
    split <;> rfl
  refine ⟨hse, ?_⟩
  unfold extractToolCallL
  rw [hse]

/-- C10 witness: a prose sentence embedding a complete structured tool-call
object (the `"tool"`/`"params"` gate passes) extracts nothing on the
structured path and falls through; the fall-through formats find nothing
either, so no tool call is detected at all. -/
theorem c10_structured_requires_whole_response_witness :
    isProseChar 'T' = true ∧
      structuredExtract ('T' :: "he call ".data ++ lbrace ::
        "\"tool\":\"calculator\",\"params\":\x7b\x7d\x7d here.".data) = none ∧
      extractToolCallL ('T' :: "he call ".data ++ lbrace ::
          "\"tool\":\"calculator\",\"params\":\x7b\x7d\x7d here.".data) =
        fallbackExtract ('T' :: "he call ".data ++ lbrace ::
          "\"tool\":\"calculator\",\"params\":\x7b\x7d\x7d here.".data) :=
  ⟨by decide,
   (c10_structured_requires_whole_response 'T' "he call ".data
      "\"tool\":\"calculator\",\"params\":\x7b\x7d\x7d here.".data (by decide)).1,
   (c10_structured_requires_whole_response 'T' "he call ".data
      "\"tool\":\"calculator\",\"params\":\x7b\x7d\x7d here.".data (by decide)).2⟩
